import Mathlib

/-!
Verification development for the docufreshAI marker-resolution engine.

The JavaScript sources (src/index.js, src/markers.js, src/wikipedia.js,
src/ai-engine.js) are shallowly embedded over lists of characters.
Strings are modelled as `List Char`; JavaScript whitespace is modelled by
the ASCII whitespace characters that occur in the documents of interest.
Fallible JavaScript code (thrown exceptions, rejected promises) is
modelled with `Except`.
-/

namespace Docufresh

abbrev Str := List Char

/-- Character list of a string literal. -/
def str (s : String) : Str := s.data

/-- ASCII whitespace, the fragment of the JS `\s` class and of
`String.prototype.trim` relevant to the modelled documents. -/
def isWsChar (c : Char) : Bool :=
  c == ' ' || c == '\t' || c == '\n' || c == '\r'

/-- The JS word-character class `\w` = `[A-Za-z0-9_]`. -/
def isWordChar (c : Char) : Bool :=
  c.isAlphanum || c == '_'

/-- JS `String.prototype.trim`: strip leading and trailing whitespace. -/
def jsTrim (s : Str) : Str :=
  ((s.dropWhile isWsChar).reverse.dropWhile isWsChar).reverse

/-- JS `String.prototype.split(':')`: split on every colon; an input with
no colon yields a one-element list, a trailing colon yields a trailing
empty segment. -/
def splitOnColon : Str → List Str
  | [] => [[]]
  | c :: cs =>
    if c == ':' then [] :: splitOnColon cs
    else
      match splitOnColon cs with
      | [] => [[c]]
      | p :: ps => (c :: p) :: ps

/-- Rejoin a parameter list with the colon separator used by the splitter
(used to state the reconstruction invariant of the spec). -/
def joinWithColon : List Str → Str
  | [] => []
  | [p] => p
  | p :: q :: ps => p ++ ':' :: joinWithColon (q :: ps)

/-- Whether a list starts with the given pattern. -/
def startsWith : Str → Str → Bool
  | _, [] => true
  | [], _ :: _ => false
  | c :: cs, p :: ps => c == p && startsWith cs ps

/-- Split a buffer around the first occurrence of a (non-empty) pattern:
`splitAtFirst pat s = some (pre, post)` when `s = pre ++ pat ++ post` and
`pre` is shortest possible; `none` when the pattern does not occur. -/
def splitAtFirst (pattern : Str) : Str → Option (Str × Str)
  | [] => if pattern == [] then some ([], []) else none
  | c :: cs =>
    if startsWith (c :: cs) pattern then
      some ([], (c :: cs).drop pattern.length)
    else
      match splitAtFirst pattern cs with
      | some (pre, post) => some (c :: pre, post)
      | none => none

/-- ECMAScript GetSubstitution for a string-pattern `replace`: in the
replacement text, `$$` inserts a dollar, `$&` the matched substring,
a dollar followed by a backquote the text before the match, a dollar
followed by a quote the text after the match; any other use of `$`
(including `$n`, since a string pattern has no capture groups) is kept
literally. -/
def getSubstitution (matched pre post : Str) : Str → Str
  | [] => []
  | c :: rest =>
    if c == '$' then
      match rest with
      | [] => ['$']
      | d :: rest2 =>
        if d == '$' then '$' :: getSubstitution matched pre post rest2
        else if d == '&' then matched ++ getSubstitution matched pre post rest2
        else if d == '\x60' then pre ++ getSubstitution matched pre post rest2
        else if d == '\x27' then post ++ getSubstitution matched pre post rest2
        else '$' :: getSubstitution matched pre post (d :: rest2)
    else c :: getSubstitution matched pre post rest

/-- JS `s.replace(pattern, replacement)` with a string pattern: replaces
only the FIRST occurrence of `pattern`, applying GetSubstitution to the
replacement text; returns `s` unchanged when the pattern does not occur. -/
def jsReplaceFirst (s pattern replacement : Str) : Str :=
  match splitAtFirst pattern s with
  | none => s
  | some (pre, post) => pre ++ getSubstitution pattern pre post replacement ++ post

/-- Auxiliary for global replacement: `origPre` is the text of the
original string before the current suffix (needed by GetSubstitution). -/
def jsReplaceAllAux (pattern replacement : Str) : Nat → Str → Str → Str
  | 0, _, s => s
  | fuel + 1, origPre, s =>
    match splitAtFirst pattern s with
    | none => s
    | some (pre, post) =>
      pre ++ getSubstitution pattern (origPre ++ pre) post replacement
          ++ jsReplaceAllAux pattern replacement fuel (origPre ++ pre ++ pattern) post

/-- JS `s.replace(regexp-with-g-flag, replacement)` for a literal pattern:
replaces every non-overlapping occurrence, left to right. -/
def jsReplaceAll (s pattern replacement : Str) : Str :=
  if pattern == [] then s else jsReplaceAllAux pattern replacement s.length [] s

/-! ## The marker scanner (src/index.js, process)

The engine scans the buffer with two regular expressions. The
parameterized pattern matches a double open brace, a name of shape
`ai_` followed by one or more word characters, a colon, a parameter text
made of characters that are neither an open nor a close brace, and a
double close brace. The bare pattern is the same without the colon and
parameter part. -/

/-- Attempt of the parameterized-marker pattern at the head of the list:
the literal double open brace and `ai_` prefix, a greedy non-empty run
of word characters (the rest of the name), the colon, a greedy run of
non-brace characters (the parameter text), and the literal double close
brace. Returns the marker name, the raw parameter text and the
characters after the match. -/
def tryMatchInner (s : Str) : Option (Str × Str × Str) :=
  if startsWith s (str ("\x7b\x7bai_")) then
    let cs := s.drop 5
    let w := cs.takeWhile isWordChar
    let cs1 := cs.dropWhile isWordChar
    if w == [] then none
    else if startsWith cs1 [':'] then
      let cs2 := cs1.drop 1
      let p := cs2.takeWhile (fun c => c != '\x7b' && c != '\x7d')
      let cs3 := cs2.dropWhile (fun c => c != '\x7b' && c != '\x7d')
      if startsWith cs3 (str ("\x7d\x7d")) then some (str ("ai_") ++ w, p, cs3.drop 2)
      else none
    else none
  else none

/-- Attempt of the bare-marker pattern at the head of the list: as the
parameterized pattern but with the double close brace directly after the
name. -/
def tryMatchSimple (s : Str) : Option (Str × Str) :=
  if startsWith s (str ("\x7b\x7bai_")) then
    let cs := s.drop 5
    let w := cs.takeWhile isWordChar
    let cs1 := cs.dropWhile isWordChar
    if w == [] then none
    else if startsWith cs1 (str ("\x7d\x7d")) then some (str ("ai_") ++ w, cs1.drop 2)
    else none
  else none

/-- All matches of the parameterized pattern, left to right and
non-overlapping, as `matchAll` produces them: on a match the scan resumes
after the match, otherwise it advances one character. -/
def findAllInnerAux : Nat → Str → List (Str × Str)
  | 0, _ => []
  | _ + 1, [] => []
  | fuel + 1, c :: cs =>
    match tryMatchInner (c :: cs) with
    | some (name, p, rest) => (name, p) :: findAllInnerAux fuel rest
    | none => findAllInnerAux fuel cs

def findAllInner (s : Str) : List (Str × Str) := findAllInnerAux s.length s

/-- All matches of the bare pattern, left to right and non-overlapping. -/
def findAllSimpleAux : Nat → Str → List Str
  | 0, _ => []
  | _ + 1, [] => []
  | fuel + 1, c :: cs =>
    match tryMatchSimple (c :: cs) with
    | some (name, rest) => name :: findAllSimpleAux fuel rest
    | none => findAllSimpleAux fuel cs

def findAllSimple (s : Str) : List Str := findAllSimpleAux s.length s

/-- The full matched text of a parameterized marker, also the text the
engine rebuilds for an unknown or failing marker. -/
def markerText (name params : Str) : Str :=
  '\x7b' :: '\x7b' :: name ++ ':' :: params ++ ['\x7d', '\x7d']

/-- The full matched text of a bare marker, also the pattern of the
custom-data pass. -/
def bareMarkerText (name : Str) : Str :=
  '\x7b' :: '\x7b' :: name ++ ['\x7d', '\x7d']

/-! ## Parameter splitting and single-marker resolution
(src/index.js, processMarker) -/

/-- The markers whose parameters are split at the first colon only. -/
def contentPreservingMarkers : List Str :=
  [str ("ai_rewrite"), str ("ai_answer"), str ("ai_complete")]

/-- JS `Array.prototype.includes` on a list of names. -/
def includesName : List Str → Str → Bool
  | [], _ => false
  | n :: ns, name => n == name || includesName ns name

/-- Parameter splitting of processMarker: when the raw text contains a
colon and the marker is content-preserving, split at the first colon only
and trim both parts; otherwise split on every colon and trim each
segment. -/
def splitParams (markerName paramsString : Str) : List Str :=
  let before := paramsString.takeWhile (fun c => c != ':')
  let rest := paramsString.dropWhile (fun c => c != ':')
  if rest != [] && includesName contentPreservingMarkers markerName then
    [jsTrim before, jsTrim (rest.drop 1)]
  else
    (splitOnColon paramsString).map jsTrim

/-- A marker handler: from the split parameter list to either a
replacement text or a thrown error. -/
abbrev Handler := List Str → Except Str Str

/-- The handler catalog, a name-keyed table (this.markers). -/
abbrev Catalog := List (Str × Handler)

def lookupHandler : Catalog → Str → Option Handler
  | [], _ => none
  | (n, f) :: rest, name => if n == name then some f else lookupHandler rest name

/-- processMarker: resolve a single marker. An unknown name and a handler
error both yield the rebuilt marker text; an empty parameter text calls
the handler with no arguments. -/
def processMarker (catalog : Catalog) (markerName paramsString : Str) : Str :=
  match lookupHandler catalog markerName with
  | none => markerText markerName paramsString
  | some markerFn =>
    if paramsString == [] then
      match markerFn [] with
      | .ok r => r
      | .error _ => markerText markerName paramsString
    else
      match markerFn (splitParams markerName paramsString) with
      | .ok r => r
      | .error _ => markerText markerName paramsString

/-! ## The resolution loop (src/index.js, process) -/

/-- Process the parameterized matches of one iteration: for each match,
invoke processMarker and substitute via the first-occurrence string
replace. Also returns the trace of marker invocations. -/
def applyParamMatches (catalog : Catalog) : List (Str × Str) → Str → Str × List (Str × Str)
  | [], buf => (buf, [])
  | (name, p) :: rest, buf =>
    let buf1 := jsReplaceFirst buf (markerText name p) (processMarker catalog name p)
    let res := applyParamMatches catalog rest buf1
    (res.1, (name, p) :: res.2)

/-- Process the bare matches of one iteration. -/
def applySimpleMatches (catalog : Catalog) : List Str → Str → Str × List (Str × Str)
  | [], buf => (buf, [])
  | name :: rest, buf =>
    let buf1 := jsReplaceFirst buf (bareMarkerText name) (processMarker catalog name [])
    let res := applySimpleMatches catalog rest buf1
    (res.1, (name, []) :: res.2)

/-- The iteration cap of the resolution loop. -/
def maxIterations : Nat := 10

/-- The while loop of process: scan for both marker shapes, stop when
none is found, otherwise resolve and substitute all found matches and
iterate. Returns the final buffer, the number of iterations that
processed matches, and the invocation trace. -/
def processLoop (catalog : Catalog) : Nat → Str → Str × Nat × List (Str × Str)
  | 0, buf => (buf, 0, [])
  | fuel + 1, buf =>
    let found := findAllInner buf
    let simples := findAllSimple buf
    if found.isEmpty && simples.isEmpty then (buf, 0, [])
    else
      let step1 := applyParamMatches catalog found buf
      let step2 := applySimpleMatches catalog simples step1.1
      let res := processLoop catalog fuel step2.1
      (res.1, res.2.1 + 1, step1.2 ++ step2.2 ++ res.2.2)

/-- The custom-data pass of process: for each entry, globally replace the
bare occurrence of the key with the stringified value. -/
def applyCustomData : List (Str × Str) → Str → Str
  | [], text => text
  | (key, value) :: rest, text =>
    applyCustomData rest (jsReplaceAll text (bareMarkerText key) value)

/-- process: custom-data pass then the capped resolution loop. -/
def process (catalog : Catalog) (customData : List (Str × Str)) (text : Str) : Str :=
  (processLoop catalog maxIterations (applyCustomData customData text)).1

/-- Number of match-processing iterations the loop performed. -/
def processIterations (catalog : Catalog) (customData : List (Str × Str)) (text : Str) : Nat :=
  (processLoop catalog maxIterations (applyCustomData customData text)).2.1

/-- The marker invocations of processing, in order. -/
def processTrace (catalog : Catalog) (customData : List (Str × Str)) (text : Str) : List (Str × Str) :=
  (processLoop catalog maxIterations (applyCustomData customData text)).2.2

/-! ## The Wikipedia lookup collaborator (src/wikipedia.js) -/

/-- normalizeTopic: trim, replace every whitespace run by a single
underscore, then strip leading and trailing underscores. -/
def collapseWsAux : Str → Bool → Str
  | [], _ => []
  | c :: cs, inRun =>
    if isWsChar c then
      if inRun then collapseWsAux cs true else '_' :: collapseWsAux cs true
    else c :: collapseWsAux cs false

def normalizeTopic (topic : Str) : Str :=
  let collapsed := collapseWsAux (jsTrim topic) false
  ((collapsed.dropWhile (fun c => c == '_')).reverse.dropWhile (fun c => c == '_')).reverse

/-- stripHtml: global replacement of every `<`, non-`>` run, `>` group by
the empty string. -/
def stripHtmlAux : Nat → Str → Str
  | 0, s => s
  | _ + 1, [] => []
  | fuel + 1, c :: cs =>
    if c == '<' then
      match cs.dropWhile (fun x => x != '>') with
      | '>' :: rest => stripHtmlAux fuel rest
      | _ => c :: cs
    else c :: stripHtmlAux fuel cs

def stripHtml (s : Str) : Str := stripHtmlAux s.length s

/-- The summary object built by getSummary. The source sets `error: true`
only on the degraded branch; the success branch leaves the property
undefined, modelled as `false`. -/
structure SummaryRecord where
  title : Str
  description : Str
  extract : Str
  extractShort : Str
  thumbnail : Option Str
  url : Option Str
  timestamp : Str
  error : Bool
deriving DecidableEq, Repr

/-- The fields of the parsed Wikipedia REST response that getSummary
reads (absent JSON fields are `none`). -/
structure WikiApiData where
  title : Str
  description : Option Str
  extract : Option Str
  extractHtml : Option Str
  thumbnailSource : Option Str
  desktopPage : Option Str
  timestamp : Option Str
deriving DecidableEq, Repr

/-- Association lookup in the client cache (entries are assumed within
their TTL; getFromCache returns the stored record or null). -/
def lookupCache : List (Str × SummaryRecord) → Str → Option SummaryRecord
  | [], _ => none
  | (k, r) :: rest, key => if k == key then some r else lookupCache rest key

/-- getSummary: return the cached record when present; otherwise the
outcome of the fetch. The try/catch of the source makes the operation
total: any fetch failure produces the degraded record with `error: true`
and a synthetic extract, never an exception. `fetchRes` is the outcome of
the network fetch and JSON parse; `nowIso` stands for
`new Date().toISOString()`. -/
def getSummary (cache : List (Str × SummaryRecord)) (fetchRes : Except Str WikiApiData)
    (nowIso : Str) (topic : Str) : SummaryRecord :=
  let normalizedTopic := normalizeTopic topic
  match lookupCache cache normalizedTopic with
  | some cached => cached
  | none =>
    match fetchRes with
    | .ok data =>
      { title := data.title
        description := data.description.getD []
        extract := data.extract.getD []
        extractShort :=
          match data.extractHtml with
          | some _ => (stripHtml (data.extract.getD [])).take 200
          | none => []
        thumbnail := data.thumbnailSource
        url := data.desktopPage
        timestamp := data.timestamp.getD nowIso
        error := false }
    | .error _ =>
      { title := topic
        description := []
        extract := str ("Unable to fetch information about ") ++ topic
        extractShort := []
        thumbnail := none
        url := none
        timestamp := nowIso
        error := true }

/-- getFact: the extract of the summary, or a placeholder when the
extract is empty. -/
def getFact (cache : List (Str × SummaryRecord)) (fetchRes : Except Str WikiApiData)
    (nowIso : Str) (topic : Str) : Str :=
  let summary := getSummary cache fetchRes nowIso topic
  if summary.extract == [] then str ("Information about ") ++ topic ++ str (" not available")
  else summary.extract

/-- The method names defined by class WikipediaClient in
src/wikipedia.js: its constructor and the ten methods of its body.
No getFactWithFallback method is among them. -/
def wikipediaClientMethods : List Str :=
  [str ("constructor"), str ("getSummary"), str ("getFact"), str ("getDescription"),
   str ("search"), str ("normalizeTopic"), str ("stripHtml"), str ("getFromCache"),
   str ("setCache"), str ("clearCache"), str ("fetch")]

/-- Whether the property access wikipedia.getFactWithFallback finds a
method on the client. -/
def hasGetFactWithFallback : Bool :=
  includesName wikipediaClientMethods (str ("getFactWithFallback"))

/-- getFactsFromWikipedia, the helper of createAIMarkers in
src/markers.js used by ai_fact, ai_rewrite and two-parameter ai_answer:
with the search fallback enabled (its default) it evaluates
wikipedia.getFactWithFallback(topic). Class WikipediaClient defines no
such method, so in JavaScript the property is undefined and the call
site throws a TypeError, modelled as the error case; were the method
present, the call would dispatch to it. With the fallback disabled the
helper calls wikipedia.getFact(topic). -/
def getFactsFromWikipedia (useSearchFallback : Bool) (cache : List (Str × SummaryRecord))
    (fetchRes : Except Str WikiApiData) (nowIso : Str) (topic : Str) : Except Str Str :=
  if useSearchFallback then
    if hasGetFactWithFallback then
      .ok (getFact cache fetchRes nowIso topic)
    else
      .error (str ("TypeError: wikipedia.getFactWithFallback is not a function"))
  else
    .ok (getFact cache fetchRes nowIso topic)

/-! ## Key-info extraction (src/ai-engine.js, extractKeyInfo)

The priority-ordered pattern search of the AI engine: a quantity with a
scale word and optional unit noun, then a percentage, then a month name
with a four-digit year, then a bare four-digit year; the first match of
the first matching pattern is returned trimmed, and when no pattern
matches, the first sentence (truncated to 100 characters with an
ellipsis when longer). -/

/-- Case-insensitive match of a lowercase keyword at the head of the
input; returns the original slice and the remainder. -/
def matchKeywordCI : Str → Str → Option (Str × Str)
  | [], s => some ([], s)
  | _ :: _, [] => none
  | k :: ks, c :: cs =>
    if c.toLower == k then
      match matchKeywordCI ks cs with
      | some (m, rest) => some (c :: m, rest)
      | none => none
    else none

/-- First alternative of a keyword alternation that matches at the head
of the input. -/
def matchFirstKeyword : List Str → Str → Option (Str × Str)
  | [], _ => none
  | k :: ks, s =>
    match matchKeywordCI k s with
    | some r => some r
    | none => matchFirstKeyword ks s

/-- The number prefix `\d[\d,]*(\.\d+)?`: a digit, then digits and
commas, then an optional dot-and-digits fraction. -/
def matchNumberStart : Str → Option (Str × Str)
  | [] => none
  | c :: cs =>
    if c.isDigit then
      let ds := cs.takeWhile (fun x => x.isDigit || x == ',')
      let r1 := cs.dropWhile (fun x => x.isDigit || x == ',')
      match r1 with
      | '.' :: d :: r2 =>
        if d.isDigit then
          let fs := r2.takeWhile Char.isDigit
          let r3 := r2.dropWhile Char.isDigit
          some (c :: ds ++ '.' :: d :: fs, r3)
        else some (c :: ds, r1)
      | _ => some (c :: ds, r1)
    else none

def scaleWords : List Str := [str ("million"), str ("billion"), str ("trillion")]

def unitWords : List Str := [str ("users"), str ("people"), str ("dollars"), str ("downloads")]

def monthWords : List Str :=
  [str ("january"), str ("february"), str ("march"), str ("april"), str ("may"),
   str ("june"), str ("july"), str ("august"), str ("september"), str ("october"),
   str ("november"), str ("december")]

/-- Attempt, at the head of the input, of the pattern
number, optional whitespace, scale word, optional whitespace, optional
unit noun (case-insensitive); returns the matched text. -/
def matchScaleQuantityAt (s : Str) : Option Str :=
  match matchNumberStart s with
  | none => none
  | some (num, r1) =>
    let ws := r1.takeWhile isWsChar
    let r2 := r1.dropWhile isWsChar
    match matchFirstKeyword scaleWords r2 with
    | none => none
    | some (scale, r3) =>
      let ws2 := r3.takeWhile isWsChar
      let r4 := r3.dropWhile isWsChar
      match matchFirstKeyword unitWords r4 with
      | some (unitNoun, _) => some (num ++ ws ++ scale ++ ws2 ++ unitNoun)
      | none => some (num ++ ws ++ scale ++ ws2)

/-- Attempt, at the head of the input, of the percentage pattern
number, optional whitespace, the word percent or a percent sign. -/
def matchPercentAt (s : Str) : Option Str :=
  match matchNumberStart s with
  | none => none
  | some (num, r1) =>
    let ws := r1.takeWhile isWsChar
    let r2 := r1.dropWhile isWsChar
    match matchFirstKeyword [str ("percent")] r2 with
    | some (kw, _) => some (num ++ ws ++ kw)
    | none =>
      match r2 with
      | '%' :: _ => some (num ++ ws ++ ['%'])
      | _ => none

/-- Attempt, at the head of the input, of a month name, mandatory
whitespace and four digits. -/
def matchMonthYearAt (s : Str) : Option Str :=
  match matchFirstKeyword monthWords s with
  | none => none
  | some (month, r1) =>
    let ws := r1.takeWhile isWsChar
    let r2 := r1.dropWhile isWsChar
    if ws == [] then none
    else
      match r2 with
      | a :: b :: c :: d :: _ =>
        if a.isDigit && b.isDigit && c.isDigit && d.isDigit then
          some (month ++ ws ++ [a, b, c, d])
        else none
      | _ => none

/-- Attempt, at the head of the input, of four consecutive digits. -/
def matchYearAt : Str → Option Str
  | a :: b :: c :: d :: _ =>
    if a.isDigit && b.isDigit && c.isDigit && d.isDigit then some [a, b, c, d] else none
  | _ => none

/-- First (leftmost) match of a pattern in the text: try the pattern at
every position, advancing one character on failure. -/
def findFirstMatchAux (m : Str → Option Str) : Nat → Str → Option Str
  | 0, _ => none
  | _ + 1, [] => none
  | fuel + 1, c :: cs =>
    match m (c :: cs) with
    | some matched => some matched
    | none => findFirstMatchAux m fuel cs

def findFirstMatch (m : Str → Option Str) (s : Str) : Option Str :=
  findFirstMatchAux m s.length s

/-- extractKeyInfo: priority-ordered pattern search, then the
first-sentence fallback. -/
def extractKeyInfo (fact : Str) : Str :=
  match findFirstMatch matchScaleQuantityAt fact with
  | some m => jsTrim m
  | none =>
  match findFirstMatch matchPercentAt fact with
  | some m => jsTrim m
  | none =>
  match findFirstMatch matchMonthYearAt fact with
  | some m => jsTrim m
  | none =>
  match findFirstMatch matchYearAt fact with
  | some m => jsTrim m
  | none =>
    let firstSentence := fact.takeWhile (fun c => c != '.' && c != '!' && c != '?')
    if firstSentence.length ≤ 100 then jsTrim firstSentence
    else jsTrim (firstSentence.take 100) ++ str ("...")

/-! ## Helper lemmas -/

theorem dropWhile_head_not (p : Char → Bool) :
    ∀ (l : Str) (c : Char) (cs : Str), l.dropWhile p = c :: cs → p c = false := by
  intro l
  induction l with
  | nil => intro c cs h; simp [List.dropWhile] at h
  | cons a as ih =>
    intro c cs h
    rw [List.dropWhile_cons] at h
    by_cases hpa : p a
    · rw [if_pos hpa] at h
      exact ih c cs h
    · rw [if_neg hpa] at h
      injection h with h1 _
      subst h1
      simpa using hpa

theorem getSubstitution_no_dollar (matched pre post : Str) :
    ∀ repl, '$' ∉ repl → getSubstitution matched pre post repl = repl := by
  intro repl
  induction repl with
  | nil => intro _; rfl
  | cons c rest ih =>
    intro h
    have hc : c ≠ '$' := fun hc => h (hc ▸ List.mem_cons_self c rest)
    have hrest : '$' ∉ rest := fun hm => h (List.mem_cons_of_mem c hm)
    rw [getSubstitution.eq_def]
    simp only [if_neg (show ¬((c == '$') = true) by simpa using hc)]
    exact congrArg (c :: ·) (ih hrest)

theorem applyParamMatches_trace (catalog : Catalog) :
    ∀ ms buf, (applyParamMatches catalog ms buf).2 = ms := by
  intro ms
  induction ms with
  | nil => intro buf; rfl
  | cons m rest ih =>
    intro buf
    obtain ⟨name, p⟩ := m
    simp [applyParamMatches, ih]

theorem applySimpleMatches_trace (catalog : Catalog) :
    ∀ names buf, (applySimpleMatches catalog names buf).2
      = names.map (fun n => (n, ([] : Str))) := by
  intro names
  induction names with
  | nil => intro buf; rfl
  | cons n rest ih =>
    intro buf
    simp [applySimpleMatches, ih]

theorem processLoop_iterations_le (catalog : Catalog) :
    ∀ fuel buf, (processLoop catalog fuel buf).2.1 ≤ fuel := by
  intro fuel
  induction fuel with
  | zero => intro buf; exact Nat.le_refl 0
  | succ n ih =>
    intro buf
    simp only [processLoop]
    by_cases h : ((findAllInner buf).isEmpty && (findAllSimple buf).isEmpty) = true
    · rw [if_pos h]
      exact Nat.zero_le _
    · rw [if_neg h]
      exact Nat.succ_le_succ (ih _)

theorem processLoop_no_markers (catalog : Catalog) (fuel : Nat) (buf : Str)
    (h1 : findAllInner buf = []) (h2 : findAllSimple buf = []) :
    processLoop catalog fuel buf = (buf, 0, []) := by
  cases fuel with
  | zero => rfl
  | succ n => simp [processLoop, h1, h2]

/-- One iteration body of the resolution loop: resolve and substitute
the parameterized matches, then the bare matches, of the current
buffer. -/
def iterateOnce (catalog : Catalog) (buf : Str) : Str :=
  (applySimpleMatches catalog (findAllSimple buf)
    (applyParamMatches catalog (findAllInner buf) buf).1).1

theorem processLoop_succ_of_found (catalog : Catalog) (fuel : Nat) (buf : Str)
    (hne : ((findAllInner buf).isEmpty && (findAllSimple buf).isEmpty) = false) :
    (processLoop catalog (fuel + 1) buf).1
        = (processLoop catalog fuel (iterateOnce catalog buf)).1 ∧
    (processLoop catalog (fuel + 1) buf).2.1
        = (processLoop catalog fuel (iterateOnce catalog buf)).2.1 + 1 := by
  simp only [processLoop, iterateOnce]
  rw [if_neg (by simp [hne])]
  exact ⟨rfl, rfl⟩

/-- A buffer that still contains markers but is reproduced unchanged by
one iteration stays unchanged and consumes all remaining fuel. -/
theorem processLoop_fixed (catalog : Catalog) (buf : Str)
    (hne : ((findAllInner buf).isEmpty && (findAllSimple buf).isEmpty) = false)
    (hfix : iterateOnce catalog buf = buf) :
    ∀ fuel, (processLoop catalog fuel buf).1 = buf ∧
      (processLoop catalog fuel buf).2.1 = fuel := by
  intro fuel
  induction fuel with
  | zero => exact ⟨rfl, rfl⟩
  | succ n ih =>
    obtain ⟨h1, h2⟩ := processLoop_succ_of_found catalog n buf hne
    rw [hfix] at h1 h2
    exact ⟨h1.trans ih.1, by rw [h2, ih.2]⟩

theorem tryMatchInner_params_no_brace (s name p rest : Str)
    (h : tryMatchInner s = some (name, p, rest)) : '\x7b' ∉ p ∧ '\x7d' ∉ p := by
  simp only [tryMatchInner] at h
  by_cases h1 : startsWith s (str ("\x7b\x7bai_")) = true
  swap
  · rw [if_neg h1] at h; cases h
  rw [if_pos h1] at h
  by_cases h2 : ((s.drop 5).takeWhile isWordChar == []) = true
  · rw [if_pos h2] at h; cases h
  rw [if_neg h2] at h
  by_cases h3 : startsWith ((s.drop 5).dropWhile isWordChar) [':'] = true
  swap
  · rw [if_neg h3] at h; cases h
  rw [if_pos h3] at h
  by_cases h4 : startsWith ((((s.drop 5).dropWhile isWordChar).drop 1).dropWhile
      (fun c => c != '\x7b' && c != '\x7d')) (str ("\x7d\x7d")) = true
  swap
  · rw [if_neg h4] at h; cases h
  rw [if_pos h4] at h
  simp only [Option.some.injEq, Prod.mk.injEq] at h
  obtain ⟨-, hp, -⟩ := h
  subst hp
  constructor <;> intro hmem <;> have := List.mem_takeWhile_imp hmem <;> simp at this

theorem findAllInnerAux_params_no_brace :
    ∀ fuel (s name p : Str), (name, p) ∈ findAllInnerAux fuel s →
      '\x7b' ∉ p ∧ '\x7d' ∉ p := by
  intro fuel
  induction fuel with
  | zero => intro s name p h; simp [findAllInnerAux] at h
  | succ n ih =>
    intro s name p h
    cases s with
    | nil => simp [findAllInnerAux] at h
    | cons c cs =>
      rw [show findAllInnerAux (n + 1) (c :: cs)
          = (match tryMatchInner (c :: cs) with
             | some (name, p, rest) => (name, p) :: findAllInnerAux n rest
             | none => findAllInnerAux n cs) from rfl] at h
      cases htm : tryMatchInner (c :: cs) with
      | none =>
        rw [htm] at h
        exact ih cs name p h
      | some t =>
        obtain ⟨n0, p0, rest0⟩ := t
        rw [htm] at h
        rcases List.mem_cons.mp h with heq | hmem
        · cases heq
          exact tryMatchInner_params_no_brace (c :: cs) _ _ _ htm
        · exact ih rest0 name p hmem

/-! ## Claim C1 -/

/-- Claim C1 (code bug): the marker helper getFactsFromWikipedia, used by
ai_fact, ai_rewrite and two-parameter ai_answer, calls
wikipedia.getFactWithFallback whenever the search fallback is enabled
(its default), but class WikipediaClient defines no getFactWithFallback
method, so the call throws a TypeError for every subject name instead of
invoking an existing operation; only with the fallback disabled does the
helper successfully call getFact. -/
theorem c1_getFactWithFallback_missing :
    hasGetFactWithFallback = false ∧
    (∀ cache fetchRes nowIso topic,
      getFactsFromWikipedia true cache fetchRes nowIso topic
        = .error (str ("TypeError: wikipedia.getFactWithFallback is not a function"))) ∧
    (∀ cache fetchRes nowIso topic,
      getFactsFromWikipedia false cache fetchRes nowIso topic
        = .ok (getFact cache fetchRes nowIso topic)) := by
  have hmethods : hasGetFactWithFallback = false := by decide
  refine ⟨hmethods, ?_, ?_⟩
  · intro cache fetchRes nowIso topic
    simp [getFactsFromWikipedia, hmethods]
  · intro cache fetchRes nowIso topic
    simp [getFactsFromWikipedia]

/-! ## Claim C8 -/

/-- Claim C8: extractKeyInfo returns the first match of the
highest-priority matching pattern (scale-word quantity, then percentage,
then month plus year, then bare year), verbatim up to trimming, and only
without any pattern match falls back to the first sentence, truncated at
100 characters with an ellipsis; in particular the population example of
the spec yields the scale-word match. -/
theorem c8_extract_key_info :
    extractKeyInfo (str ("The population reached 8.1 billion people in 2023.")) = str ("8.1 billion people") ∧
    extractKeyInfo (str ("Inflation hit 3.2 percent this year.")) = str ("3.2 percent") ∧
    extractKeyInfo (str ("Released in March 2020, it grew.")) = str ("March 2020") ∧
    extractKeyInfo (str ("The year 2019 was pivotal. It had 5 percent growth.")) = str ("5 percent") ∧
    extractKeyInfo (str ("Hello world. More text.")) = str ("Hello world") ∧
    extractKeyInfo (List.replicate 120 'a') = List.replicate 100 'a' ++ str ("...")
    := by
  refine ⟨by decide, by decide, by decide, by decide, by decide, by decide⟩

/-! ## Claim C9 -/

/-- Claim C9: getSummary never throws; on a cache miss with a failing
fetch it returns the degraded record, with the degraded flag set and the
synthetic extract text naming the topic. -/
theorem c9_degraded_record (cache : List (Str × SummaryRecord))
    (fetchRes : Except Str WikiApiData) (nowIso topic e : Str)
    (hmiss : lookupCache cache (normalizeTopic topic) = none)
    (hfail : fetchRes = .error e) :
    (getSummary cache fetchRes nowIso topic).error = true ∧
    (getSummary cache fetchRes nowIso topic).extract
      = str ("Unable to fetch information about ") ++ topic := by
  subst hfail
  simp [getSummary, hmiss]

theorem c9_degraded_record_witness :
    (getSummary [] (.error (str ("network"))) (str ("now")) (str ("Atlantis"))).error = true ∧
    (getSummary [] (.error (str ("network"))) (str ("now")) (str ("Atlantis"))).extract
      = str ("Unable to fetch information about ") ++ str ("Atlantis") :=
  c9_degraded_record [] (.error (str ("network"))) (str ("now")) (str ("Atlantis"))
    (str ("network")) (by decide) rfl

/-! ## Claim C10 -/

def dollarCatalog : Catalog := [(str ("ai_x"), fun _ => .ok (str ("$$")))]

/-- Claim C10 (implicit): marker substitution uses the JS
replacement-pattern semantics of String.replace. A handler result
without a dollar character is inserted verbatim, but a result containing
a pattern such as a doubled dollar or the matched-text pattern is
rewritten by GetSubstitution before insertion, so the inserted text can
differ from the string the handler returned. -/
theorem c10_replacement_pattern_semantics :
    (∀ matched pre post repl, '$' ∉ repl → getSubstitution matched pre post repl = repl) ∧
    (jsReplaceFirst (str ("A \x7b\x7bai_x:y\x7d\x7d B")) (markerText (str ("ai_x")) (str ("y")))
        (str ("$&")) = str ("A \x7b\x7bai_x:y\x7d\x7d B")) ∧
    (str ("A \x7b\x7bai_x:y\x7d\x7d B") ≠ str ("A $& B")) ∧
    (process dollarCatalog [] (markerText (str ("ai_x")) (str ("y"))) = str ("$")) ∧
    (str ("$") ≠ str ("$$")) := by
  exact ⟨fun m pre post repl h => getSubstitution_no_dollar m pre post repl h,
    by decide, by decide, by decide, by decide⟩

theorem c10_replacement_pattern_semantics_witness :
    getSubstitution (str ("M")) [] [] (str ("plain")) = str ("plain") :=
  c10_replacement_pattern_semantics.1 (str ("M")) [] [] (str ("plain")) (by decide)

/-! ## Claim C7 -/

/-- Claim C7: parameter splitting selects between exactly two strategies
by membership of the marker name in the content-preserving set: a member
splits the example text at the first colon only, both parts trimmed,
while every other marker splits on every colon with each segment
trimmed. -/
theorem c7_split_strategies :
    (∀ name, includesName contentPreservingMarkers name = true →
      splitParams name (str ("Topic:This has: colons"))
        = [str ("Topic"), str ("This has: colons")]) ∧
    (∀ name, includesName contentPreservingMarkers name = false →
      splitParams name (str ("a:b:c")) = [str ("a"), str ("b"), str ("c")]) := by
  constructor
  · intro name hname
    have hunfold : includesName contentPreservingMarkers name
        = (str ("ai_rewrite") == name || (str ("ai_answer") == name
            || (str ("ai_complete") == name || false))) := rfl
    rw [hunfold] at hname
    simp only [Bool.or_false, Bool.or_eq_true, beq_iff_eq] at hname
    rcases hname with h | h | h <;> subst h <;> decide
  · intro name hname
    have hform : splitParams name (str ("a:b:c"))
        = (splitOnColon (str ("a:b:c"))).map jsTrim := by
      simp [splitParams, hname]
    rw [hform]
    decide

theorem c7_split_strategies_witness :
    splitParams (str ("ai_rewrite")) (str ("Topic:This has: colons"))
      = [str ("Topic"), str ("This has: colons")] ∧
    splitParams (str ("ai_fact")) (str ("a:b:c")) = [str ("a"), str ("b"), str ("c")] :=
  ⟨c7_split_strategies.1 (str ("ai_rewrite")) (by decide),
   c7_split_strategies.2 (str ("ai_fact")) (by decide)⟩

/-! ## Claim C3 -/

/-- Claim C3 (counterexample): the first-colon split trims both parts, so
rejoining the parameter list with its colon separator does not
reconstruct the raw parameter text when whitespace surrounds the first
colon. -/
theorem c3_counterexample :
    splitParams (str ("ai_rewrite")) (str ("a : b")) = [str ("a"), str ("b")] ∧
    joinWithColon [str ("a"), str ("b")] = str ("a:b") ∧
    str ("a:b") ≠ str ("a : b") :=
  ⟨by decide, by decide, by decide⟩

/-- Claim C3 (amended): for a content-preserving marker whose raw
parameter text contains a colon, the split yields the trimmed part
before the first colon and the trimmed remainder after it, and no
characters other than the surrounding whitespace of those two parts are
lost: rejoining with the colon separator reconstructs the raw text
exactly whenever the two parts carry no surrounding whitespace. -/
theorem c3_split_rejoin_up_to_trim (name raw : Str)
    (hname : includesName contentPreservingMarkers name = true)
    (hcolon : raw.dropWhile (fun c => c != ':') ≠ []) :
    ∃ p1 p2, raw = p1 ++ ':' :: p2 ∧
      splitParams name raw = [jsTrim p1, jsTrim p2] ∧
      (jsTrim p1 = p1 → jsTrim p2 = p2 → joinWithColon (splitParams name raw) = raw) := by
  obtain ⟨c, cs, hdrop⟩ : ∃ c cs, raw.dropWhile (fun c => c != ':') = c :: cs := by
    cases hd : raw.dropWhile (fun c => c != ':') with
    | nil => exact absurd hd hcolon
    | cons c cs => exact ⟨c, cs, rfl⟩
  have hc : c = ':' := by
    have := dropWhile_head_not (fun c => c != ':') raw c cs hdrop
    simpa using this
  subst hc
  have hsplit : splitParams name raw = [jsTrim (raw.takeWhile (fun c => c != ':')), jsTrim cs] := by
    simp [splitParams, hdrop, hname]
  have hdecomp : raw = raw.takeWhile (fun c => c != ':') ++ ':' :: cs := by
    conv_lhs => rw [← List.takeWhile_append_dropWhile (p := fun c => c != ':') (l := raw)]
    rw [hdrop]
  refine ⟨raw.takeWhile (fun c => c != ':'), cs, hdecomp, hsplit, ?_⟩
  intro h1 h2
  rw [hsplit]
  simp only [joinWithColon, h1, h2]
  exact hdecomp.symm

theorem c3_split_rejoin_up_to_trim_witness :
    ∃ p1 p2, str ("Topic:This has: colons") = p1 ++ ':' :: p2 ∧
      splitParams (str ("ai_rewrite")) (str ("Topic:This has: colons")) = [jsTrim p1, jsTrim p2] ∧
      (jsTrim p1 = p1 → jsTrim p2 = p2 →
        joinWithColon (splitParams (str ("ai_rewrite")) (str ("Topic:This has: colons")))
          = str ("Topic:This has: colons")) :=
  c3_split_rejoin_up_to_trim (str ("ai_rewrite")) (str ("Topic:This has: colons"))
    (by decide) (by decide)

/-! ## Claim C2 -/

def constCatalog : Catalog := [(str ("ai_x"), fun _ => .ok (str ("R")))]

def dupDoc : Str := str ("\x7b\x7bai_x:a\x7d\x7d \x7b\x7bai_x:a\x7d\x7d")

/-- Claim C2 (counterexample): on a buffer holding two occurrences of an
identical marker, the engine invokes the handler once per occurrence
(the trace has two entries, not one), and each substitution step
replaces only the first occurrence of the matched substring, leaving the
second occurrence in place. -/
theorem c2_counterexample :
    processTrace constCatalog [] dupDoc
      = [(str ("ai_x"), str ("a")), (str ("ai_x"), str ("a"))] ∧
    [(str ("ai_x"), str ("a")), (str ("ai_x"), str ("a"))]
      ≠ ([(str ("ai_x"), str ("a"))] : List (Str × Str)) ∧
    jsReplaceFirst dupDoc (markerText (str ("ai_x")) (str ("a"))) (str ("R"))
      = str ("R \x7b\x7bai_x:a\x7d\x7d") ∧
    str ("R \x7b\x7bai_x:a\x7d\x7d") ≠ str ("R R") :=
  ⟨by decide, by decide, by decide, by decide⟩

/-- Claim C2 (amended): in each iteration every occurrence matched by the
scan receives its own handler invocation, in scan order, and each
substitution replaces only the first occurrence of the matched text in
the current buffer; duplicate occurrences are therefore replaced one per
match within the iteration, ending with all of them substituted, with
identical replacements because the handler is invoked with identical
arguments. -/
theorem c2_per_occurrence_replacement :
    (∀ catalog ms buf, (applyParamMatches catalog ms buf).2 = ms) ∧
    (∀ catalog names buf, (applySimpleMatches catalog names buf).2
        = names.map (fun n => (n, ([] : Str)))) ∧
    process constCatalog [] dupDoc = str ("R R") :=
  ⟨applyParamMatches_trace, applySimpleMatches_trace, by decide⟩

/-! ## Claim C4 -/

def partialCatalog : Catalog := [(str ("ai_ok"), fun _ => .ok (str ("Z")))]

/-- Claim C4 (counterexample): a bare unknown marker is not preserved
byte-identically — resolving a bare marker rebuilds it in the
parameterized shape with a trailing colon, so the output differs from
the original bare marker text. -/
theorem c4_counterexample :
    process [] [] (bareMarkerText (str ("ai_bogus"))) = markerText (str ("ai_bogus")) [] ∧
    markerText (str ("ai_bogus")) [] ≠ bareMarkerText (str ("ai_bogus")) := by
  constructor
  · have h1 : ((findAllInner (bareMarkerText (str ("ai_bogus")))).isEmpty &&
        (findAllSimple (bareMarkerText (str ("ai_bogus")))).isEmpty) = false := by decide
    have h2 : iterateOnce [] (bareMarkerText (str ("ai_bogus")))
        = markerText (str ("ai_bogus")) [] := by decide
    have h3 : ((findAllInner (markerText (str ("ai_bogus")) [])).isEmpty &&
        (findAllSimple (markerText (str ("ai_bogus")) [])).isEmpty) = false := by decide
    have h4 : iterateOnce [] (markerText (str ("ai_bogus")) [])
        = markerText (str ("ai_bogus")) [] := by decide
    show (processLoop [] maxIterations
        (applyCustomData [] (bareMarkerText (str ("ai_bogus"))))).1 = _
    calc (processLoop [] 10 (bareMarkerText (str ("ai_bogus")))).1
        = (processLoop [] 9 (iterateOnce [] (bareMarkerText (str ("ai_bogus"))))).1 :=
          (processLoop_succ_of_found [] 9 (bareMarkerText (str ("ai_bogus"))) h1).1
      _ = (processLoop [] 9 (markerText (str ("ai_bogus")) [])).1 := by rw [h2]
      _ = markerText (str ("ai_bogus")) [] :=
          (processLoop_fixed [] (markerText (str ("ai_bogus")) []) h3 h4 9).1
  · decide

/-- Claim C4 (amended): processMarker recovers locally: an unknown
marker name and a throwing handler both yield the rebuilt marker text
with name and parameter text — identical to the original matched text
for the parameterized shape, while a bare marker is preserved in marker
form but with a colon appended; a failing marker never aborts resolution
of the rest of the document and resolve never throws. -/
theorem c4_local_recovery :
    (∀ catalog (name params : Str), lookupHandler catalog name = none →
      processMarker catalog name params = markerText name params) ∧
    (∀ catalog (name params : Str) (f : Handler) (e : Str),
      lookupHandler catalog name = some f → params ≠ [] →
      f (splitParams name params) = .error e →
      processMarker catalog name params = markerText name params) ∧
    (∀ catalog (name : Str) (f : Handler) (e : Str),
      lookupHandler catalog name = some f → f [] = .error e →
      processMarker catalog name [] = markerText name []) ∧
    process partialCatalog [] (str ("A \x7b\x7bai_bogus:x\x7d\x7d B \x7b\x7bai_ok:y\x7d\x7d"))
      = str ("A \x7b\x7bai_bogus:x\x7d\x7d B Z") := by
  refine ⟨?_, ?_, ?_, ?_⟩
  · intro catalog name params h
    simp [processMarker, h]
  · intro catalog name params f e hf hp herr
    have hpb : (params == []) = false := by simpa using hp
    simp [processMarker, hf, hpb, herr]
  · intro catalog name f e hf herr
    simp [processMarker, hf, herr]
  · have h1 : ((findAllInner (str ("A \x7b\x7bai_bogus:x\x7d\x7d B \x7b\x7bai_ok:y\x7d\x7d"))).isEmpty &&
        (findAllSimple (str ("A \x7b\x7bai_bogus:x\x7d\x7d B \x7b\x7bai_ok:y\x7d\x7d"))).isEmpty) = false := by
      decide
    have h2 : iterateOnce partialCatalog (str ("A \x7b\x7bai_bogus:x\x7d\x7d B \x7b\x7bai_ok:y\x7d\x7d"))
        = str ("A \x7b\x7bai_bogus:x\x7d\x7d B Z") := by decide
    have h3 : ((findAllInner (str ("A \x7b\x7bai_bogus:x\x7d\x7d B Z"))).isEmpty &&
        (findAllSimple (str ("A \x7b\x7bai_bogus:x\x7d\x7d B Z"))).isEmpty) = false := by decide
    have h4 : iterateOnce partialCatalog (str ("A \x7b\x7bai_bogus:x\x7d\x7d B Z"))
        = str ("A \x7b\x7bai_bogus:x\x7d\x7d B Z") := by decide
    show (processLoop partialCatalog maxIterations
        (applyCustomData [] (str ("A \x7b\x7bai_bogus:x\x7d\x7d B \x7b\x7bai_ok:y\x7d\x7d")))).1 = _
    calc (processLoop partialCatalog 10 (str ("A \x7b\x7bai_bogus:x\x7d\x7d B \x7b\x7bai_ok:y\x7d\x7d"))).1
        = (processLoop partialCatalog 9 (iterateOnce partialCatalog
            (str ("A \x7b\x7bai_bogus:x\x7d\x7d B \x7b\x7bai_ok:y\x7d\x7d")))).1 :=
          (processLoop_succ_of_found partialCatalog 9 _ h1).1
      _ = (processLoop partialCatalog 9 (str ("A \x7b\x7bai_bogus:x\x7d\x7d B Z"))).1 := by rw [h2]
      _ = str ("A \x7b\x7bai_bogus:x\x7d\x7d B Z") :=
          (processLoop_fixed partialCatalog _ h3 h4 9).1

theorem c4_local_recovery_witness :
    processMarker [] (str ("ai_bogus")) (str ("x")) = markerText (str ("ai_bogus")) (str ("x")) ∧
    processMarker [(str ("ai_bad"), fun _ => .error (str ("boom")))]
        (str ("ai_bad")) (str ("x"))
      = markerText (str ("ai_bad")) (str ("x")) ∧
    processMarker [(str ("ai_bad"), fun _ => .error (str ("boom")))] (str ("ai_bad")) []
      = markerText (str ("ai_bad")) [] :=
  ⟨c4_local_recovery.1 [] (str ("ai_bogus")) (str ("x")) rfl,
   c4_local_recovery.2.1 [(str ("ai_bad"), fun _ => .error (str ("boom")))]
     (str ("ai_bad")) (str ("x")) (fun _ => .error (str ("boom"))) (str ("boom"))
     rfl (by decide) rfl,
   c4_local_recovery.2.2.1 [(str ("ai_bad"), fun _ => .error (str ("boom")))]
     (str ("ai_bad")) (fun _ => .error (str ("boom"))) (str ("boom")) rfl rfl⟩

/-! ## Claim C5 -/

def echoCatalog : Catalog :=
  [(str ("ai_x"), fun _ => .ok (markerText (str ("ai_x")) (str ("y"))))]

/-- Claim C5: resolution terminates: the loop performs at most the fixed
cap of ten match-processing iterations, exits as soon as a scan finds no
marker of either shape, and on reaching the cap returns the buffer with
the remaining markers left as literal text — even for a handler that
regenerates its own marker every iteration. -/
theorem c5_cap_termination :
    (∀ catalog customData text, processIterations catalog customData text ≤ maxIterations) ∧
    (∀ catalog fuel (buf : Str), findAllInner buf = [] → findAllSimple buf = [] →
      processLoop catalog fuel buf = (buf, 0, [])) ∧
    process echoCatalog [] (markerText (str ("ai_x")) (str ("y")))
      = markerText (str ("ai_x")) (str ("y")) ∧
    processIterations echoCatalog [] (markerText (str ("ai_x")) (str ("y"))) = maxIterations := by
  have hne : ((findAllInner (markerText (str ("ai_x")) (str ("y")))).isEmpty &&
      (findAllSimple (markerText (str ("ai_x")) (str ("y")))).isEmpty) = false := by decide
  have hfix : iterateOnce echoCatalog (markerText (str ("ai_x")) (str ("y")))
      = markerText (str ("ai_x")) (str ("y")) := by decide
  have hecho := processLoop_fixed echoCatalog (markerText (str ("ai_x")) (str ("y")))
    hne hfix maxIterations
  refine ⟨?_, ?_, ?_, ?_⟩
  · intro catalog customData text
    exact processLoop_iterations_le catalog maxIterations _
  · intro catalog fuel buf h1 h2
    exact processLoop_no_markers catalog fuel buf h1 h2
  · show (processLoop echoCatalog maxIterations
        (applyCustomData [] (markerText (str ("ai_x")) (str ("y"))))).1 = _
    rw [applyCustomData]
    exact hecho.1
  · show (processLoop echoCatalog maxIterations
        (applyCustomData [] (markerText (str ("ai_x")) (str ("y"))))).2.1 = maxIterations
    rw [applyCustomData]
    exact hecho.2

theorem c5_cap_termination_witness :
    processLoop [] 3 (str ("plain text")) = (str ("plain text"), 0, []) :=
  c5_cap_termination.2.1 [] 3 (str ("plain text")) (by decide) (by decide)

/-! ## Claim C6 -/

def nestedDoc : Str := str ("\x7b\x7bai_complete:A \x7b\x7bai_link:Topic\x7d\x7d B\x7d\x7d")

/-- Stub collaborator behaviors for the nested example: ai_link returns
a fixed link text, ai_complete returns its first parameter (the
pass-through of the source). -/
def nestedCatalog : Catalog :=
  [(str ("ai_link"), fun _ => .ok (str ("URL"))),
   (str ("ai_complete"), fun ps => .ok (ps.headD []))]

/-- Claim C6: the parameterized scanner matches only markers whose
parameter text contains no brace (hence neither a double open nor a
double close brace), so in the nested example the inner marker is the
only match of the first iteration and is dispatched and substituted
before the outer marker is ever matched. -/
theorem c6_innermost_first :
    (∀ (s name p : Str), (name, p) ∈ findAllInner s → '\x7b' ∉ p ∧ '\x7d' ∉ p) ∧
    findAllInner nestedDoc = [(str ("ai_link"), str ("Topic"))] ∧
    processTrace nestedCatalog [] nestedDoc
      = [(str ("ai_link"), str ("Topic")), (str ("ai_complete"), str ("A URL B"))] ∧
    process nestedCatalog [] nestedDoc = str ("A URL B") :=
  ⟨fun s name p h => findAllInnerAux_params_no_brace s.length s name p h,
   by decide, by decide, by decide⟩

theorem c6_innermost_first_witness :
    '\x7b' ∉ str ("Topic") ∧ '\x7d' ∉ str ("Topic") :=
  c6_innermost_first.1 nestedDoc (str ("ai_link")) (str ("Topic")) (by decide)

end Docufresh
